import Mathlib

/-!
Verification of the socstatspy client library: a shallow embedding of the
data-fetch-and-enrichment pipeline (identifier normalization, HTTP request
execution with retry, cursor-style pagination, metadata resolution with a
per-subject cache, and label enrichment of tabular results), together with
theorems settling the specification claims about it.

Source files embedded: socstatspy/utils.py (format_id_list),
socstatspy/client.py (SocstatsClient._build_url, _make_request,
get_variable_values, get_data), socstatspy/data_fetcher.py (DataFetcher
_get_subject_metadata, _enrich_dataframe, _add_label_column, clear_cache,
get_data_as_dataframe), socstatspy/exceptions.py (the error taxonomy).

HTTP transport is abstracted by explicit oracles (functions from request to
outcome); every client function additionally returns the list of requests it
issued, so that claims about "no request made" / "exactly one request" are
statable.
-/

namespace Socstats

/-- Scalar JSON value: the cells of data rows and metadata entries
(socstatspy only ever consumes numbers, strings and null in these spots). -/
inductive SVal where
  | null
  | num (n : Int)
  | str (s : String)
deriving DecidableEq

/-- Python truthiness of a scalar: None, 0 and the empty string are falsy. -/
def SVal.truthy : SVal → Bool
  | .null => false
  | .num n => n ≠ 0
  | .str s => s ≠ ""

/-- A JSON object with scalar fields: one data row, or one entry of a
variable value list (carrying id and text fields). -/
abbrev Obj := List (String × SVal)

/-- A top-level value of a data-endpoint JSON response: either a scalar
field (nasta_sida, amne, sida, per_sida, sidor) or the record array (data). -/
inductive RVal where
  | scalar (v : SVal)
  | records (rs : List Obj)
deriving DecidableEq

/-- Python truthiness of a response field (an empty record list is falsy). -/
def RVal.truthy : RVal → Bool
  | .scalar v => v.truthy
  | .records rs => rs ≠ []

/-- A data-endpoint JSON response object (a Python dict). -/
abbrev PyObj := List (String × RVal)

namespace PyDict

variable {α : Type} {β : Type} [DecidableEq α]

/-- Python dict lookup d.get(k).  Dicts built by item assignment have unique
keys, so taking the first match is exact. -/
def get (d : List (α × β)) (k : α) : Option β :=
  match d with
  | [] => none
  | p :: ps => if p.1 = k then some p.2 else get ps k

/-- Python dict item assignment d[k] = v: replaces the value at an existing
key in place (keeping its position), otherwise appends the new binding. -/
def set (d : List (α × β)) (k : α) (v : β) : List (α × β) :=
  match d with
  | [] => [(k, v)]
  | p :: ps => if p.1 = k then (k, v) :: ps else p :: set ps k v

end PyDict

/-- Lookup in the Python dict built by dict(pairs) (as in dict(zip(ids,
texts))): when a key repeats among the pairs, the LAST occurrence wins,
because later dict entries overwrite earlier ones. -/
def pairsLookup {α β : Type} [DecidableEq α] (d : List (α × β)) (k : α) : Option β :=
  match d with
  | [] => none
  | p :: ps =>
    match pairsLookup ps k with
    | some v => some v
    | none => if p.1 = k then some p.2 else none

/-- View of an Except value as a sum, for deciding equality. -/
def exceptToSum {ε α : Type} : Except ε α → ε ⊕ α
  | .error e => .inl e
  | .ok a => .inr a

instance {ε α : Type} [DecidableEq ε] [DecidableEq α] : DecidableEq (Except ε α) := fun a b =>
  decidable_of_iff (exceptToSum a = exceptToSum b)
    (by cases a <;> cases b <;> simp [exceptToSum])

/-- The error taxonomy of socstatspy/exceptions.py plus Python's builtin
ValueError (raised by format_id_list): api = SocstatsAPIError, validation =
SocstatsValidationError, rateLimit = SocstatsRateLimitError, notFound =
SocstatsNotFoundError. -/
inductive PyErr where
  | api (msg : String)
  | validation (msg : String)
  | rateLimit (msg : String)
  | notFound (msg : String)
  | valueError (msg : String)
deriving DecidableEq

/-- An element of a filter list or tuple; the source annotates these as
int-or-str (List[Union[int, str]]). -/
inductive Scalar where
  | int (n : Int)
  | str (s : String)
deriving DecidableEq

/-- Python str(i) for a list element. -/
def Scalar.pyStr : Scalar → String
  | .int n => toString n
  | .str s => s

/-- The possible runtime types of the ids argument of format_id_list:
int, str, list, tuple, range, or anything else (the rejected case). -/
inductive IdsInput where
  | int (n : Int)
  | str (s : String)
  | list (xs : List Scalar)
  | tuple (xs : List Scalar)
  | range (start stop : Int)
  | other (tyName : String)
deriving DecidableEq

/-- The elements of Python range(a, b): a, a+1, ..., b-1 (empty if b <= a). -/
def rangeElems (a b : Int) : List Int :=
  (List.range (b - a).toNat).map (fun i => a + i)

/-- Embedding of utils.format_id_list: int and str map to their string form,
list / tuple / range map to the comma-join of their elements' string forms,
anything else raises ValueError. -/
def format_id_list (ids : IdsInput) : Except PyErr String :=
  match ids with
  | .int n => .ok (toString n)
  | .str s => .ok s
  | .list xs => .ok (String.intercalate "," (xs.map Scalar.pyStr))
  | .tuple xs => .ok (String.intercalate "," (xs.map Scalar.pyStr))
  | .range a b => .ok (String.intercalate "," ((rangeElems a b).map toString))
  | .other ty =>
    .error (.valueError ("Invalid type for IDs: " ++ ty ++ ". Expected int, str, list, tuple, or range"))

/-- A pandas DataFrame over scalar cells: a column list, one cell list per
row aligned with the columns (a missing cell, NaN, is none), and the attrs
dictionary set by get_data_as_dataframe. -/
structure DataFrame where
  cols : List String
  rows : List (List (Option SVal))
  attrs : List (String × RVal) := []
deriving DecidableEq

/-- Well-formedness: every row has exactly one cell per column. -/
def DataFrame.WF (df : DataFrame) : Prop :=
  ∀ r ∈ df.rows, r.length = df.cols.length

instance (df : DataFrame) : Decidable df.WF :=
  inferInstanceAs (Decidable (∀ r ∈ df.rows, r.length = df.cols.length))

/-- Cell of one row at a named column (first matching column, as in pandas
with unique column labels). -/
def rowGet (cols : List String) (r : List (Option SVal)) (c : String) : Option SVal :=
  match cols, r with
  | c' :: cs, v :: vs => if c' = c then v else rowGet cs vs c
  | _, _ => none

/-- Replace the cell of one row at a named column. -/
def rowSet (cols : List String) (r : List (Option SVal)) (c : String) (v : Option SVal) :
    List (Option SVal) :=
  match cols, r with
  | c' :: cs, x :: xs => if c' = c then v :: xs else x :: rowSet cs xs c v
  | _, _ => r

/-- The column c of a DataFrame as a value series (df[c]). -/
def DataFrame.colVals (df : DataFrame) (c : String) : List (Option SVal) :=
  df.rows.map (fun r => rowGet df.cols r c)

/-- Column assignment df[c] = vals: pandas replaces an existing column in
place and appends a new column at the end. -/
def DataFrame.setCol (df : DataFrame) (c : String) (vals : List (Option SVal)) : DataFrame :=
  if c ∈ df.cols then
    { df with rows := (df.rows.zip vals).map (fun p => rowSet df.cols p.1 c p.2) }
  else
    { df with cols := df.cols ++ [c], rows := (df.rows.zip vals).map (fun p => p.1 ++ [p.2]) }

/-- pd.DataFrame(records) for a list of JSON objects: columns are the keys
in order of first appearance; a row's cell is its value at that key, or NaN
(none) when the key is absent from that record. -/
def dfOfRecords (rs : List Obj) : DataFrame :=
  let cols := rs.foldl (fun acc r => r.foldl (fun a p => if p.1 ∈ a then a else a ++ [p.1]) acc) []
  { cols := cols, rows := rs.map (fun r => cols.map (fun c => PyDict.get r c)), attrs := [] }

/-- Series lookup label = df[id_col].map(id_to_text) for one cell, where
id_to_text = dict(zip(meta ids, meta texts)): a NaN cell maps to NaN, a
value absent from the dict maps to NaN, and a present value maps to the
text of the LAST pair carrying that id. -/
def seriesMap (pairs : List (Option SVal × Option SVal)) (v : Option SVal) : Option SVal :=
  match v with
  | none => none
  | some x =>
    match pairsLookup pairs (some x) with
    | some t => t
    | none => none

/-- Python s.lower() (ASCII, as the API's variable names are ASCII). -/
def pyToLower (s : String) : String := ⟨s.data.map Char.toLower⟩

/-- Python s.endswith(suffix) (case-sensitive). -/
def pyEndsWith (s suffix : String) : Bool :=
  decide (suffix.data.length ≤ s.data.length) &&
  decide (s.data.drop (s.data.length - suffix.data.length) = suffix.data)

/-- Strip a pattern prefix off a character list, returning the remainder
when the pattern is a prefix. -/
def dropPrefixChars : List Char → List Char → Option (List Char)
  | rest, [] => some rest
  | [], _ :: _ => none
  | c :: cs, p :: ps => if c = p then dropPrefixChars cs ps else none

/-- Python str.replace over character lists: replace every leftmost
non-overlapping occurrence of the pattern, scanning left to right and
continuing after each replacement.  The fuel is always instantiated with
the string length, which the recursion never exceeds (each step consumes at
least one character), so the fuel-exhausted branch is unreachable; an empty
pattern is treated as a no-op (the source only ever replaces 'Id'). -/
def replaceCharsFuel (pat rep : List Char) : Nat → List Char → List Char
  | 0, s => s
  | _ + 1, [] => []
  | fuel + 1, c :: cs =>
    match pat with
    | [] => c :: cs
    | p :: ps =>
      if c = p then
        match dropPrefixChars cs ps with
        | some rest => rep ++ replaceCharsFuel pat rep fuel rest
        | none => c :: replaceCharsFuel pat rep fuel cs
      else c :: replaceCharsFuel pat rep fuel cs

/-- Python s.replace(pat, rep): replaces ALL occurrences, not only a
trailing one. -/
def pyReplace (s pat rep : String) : String :=
  ⟨replaceCharsFuel pat.data rep.data s.data.length s.data⟩

/-- Label column name chosen by DataFetcher._add_label_column: 'ar_label'
for the special year column, otherwise id_col.replace('Id', '_label'),
which (like Python str.replace) replaces EVERY occurrence of 'Id'. -/
def labelName (id_col : String) : String :=
  if id_col = "ar" then "ar_label" else pyReplace id_col "Id" "_label"

/-- Embedding of DataFetcher._add_label_column: requires the metadata table
to have id and text columns (otherwise it returns the frame unchanged),
builds id_to_text = dict(zip(meta_df[id], meta_df[text])) and assigns the
mapped series to the label column. -/
def add_label_column (df : DataFrame) (id_col : String) (meta_df : DataFrame) : DataFrame :=
  if "id" ∈ meta_df.cols ∧ "text" ∈ meta_df.cols then
    let id_to_text := (meta_df.colVals "id").zip (meta_df.colVals "text")
    df.setCol (labelName id_col) ((df.colVals id_col).map (seriesMap id_to_text))
  else df

/-- The subject metadata mapping: variable name (the namn value from the
variable list, a scalar) to the DataFrame of its values. -/
abbrev Metadata := List (SVal × DataFrame)

/-- Columns that _enrich_dataframe never treats as identifier columns. -/
def EXCLUDED_COLUMNS : List String := ["varde", "sida", "per_sida", "sidor"]

/-- One iteration of the _enrich_dataframe column loop: skip excluded
columns and the already-processed special case 'ar'; for a column ending in
'Id', strip the suffix, lower-case, and enrich when the metadata mapping
has that variable. -/
def enrichStep (metadata : Metadata) (acc : DataFrame) (col_name : String) : DataFrame :=
  if col_name ∈ EXCLUDED_COLUMNS then acc
  else if col_name = "ar" then acc
  else if pyEndsWith col_name "Id" then
    match PyDict.get metadata (.str (pyToLower (col_name.dropRight 2))) with
    | some meta_df => add_label_column acc col_name meta_df
    | none => acc
  else acc

/-- The special-cases pass of _enrich_dataframe: the column 'ar' is
enriched (to 'ar_label') when both the column and the metadata variable
'ar' exist. -/
def arSpecial (df : DataFrame) (metadata : Metadata) : DataFrame :=
  match PyDict.get metadata (.str "ar") with
  | some meta_df => if "ar" ∈ df.cols then add_label_column df "ar" meta_df else df
  | none => df

/-- Embedding of DataFetcher._enrich_dataframe: first the special case 'ar'
(when both the column and the metadata variable exist), then one pass over
the snapshot of the column labels taken at loop entry. -/
def enrich_dataframe (df : DataFrame) (metadata : Metadata) : DataFrame :=
  (arSpecial df metadata).cols.foldl (enrichStep metadata) (arSpecial df metadata)

/-- The per-fetcher metadata cache, keyed by subject name. -/
abbrev Cache := List (String × Metadata)

/-- The two client calls _get_subject_metadata makes, abstracted as oracles:
the subject's variable list (get_subject_variables) and one variable's value
list (get_variable_values, keyed by the namn value). An error value models
the call raising. -/
structure ClientOracle where
  subjectVariables : String → Except PyErr (List Obj)
  variableValues : String → SVal → Except PyErr (List Obj)

/-- One iteration of the variable loop of _get_subject_metadata: skip an
entry with a missing or falsy namn; fetch the variable's values, swallowing
any error (that variable is simply absent); skip an empty value list; store
the value DataFrame under the variable name. -/
def metaStep (o : ClientOracle) (subject : String) (md : Metadata) (var_info : Obj) : Metadata :=
  match PyDict.get var_info "namn" with
  | none => md
  | some var_name =>
    if var_name.truthy then
      match o.variableValues subject var_name with
      | .error _ => md
      | .ok values => if values = [] then md else PyDict.set md var_name (dfOfRecords values)
    else md

/-- The cache-miss work of _get_subject_metadata: fetch the variable list
(a failure is swallowed, leaving the empty mapping) and fold the variable
loop over it. -/
def resolveMetadata (o : ClientOracle) (subject : String) : Metadata :=
  match o.subjectVariables subject with
  | .error _ => []
  | .ok vars => vars.foldl (metaStep o subject) []

/-- Embedding of DataFetcher._get_subject_metadata: serve a cached subject
without any fetch; on a miss fetch the variable list (a failure yields the
empty mapping), resolve each variable best-effort, and cache whatever
resulted.  Returns the mapping, the updated cache, and the list of subjects
for which a variable-list fetch was issued. -/
def get_subject_metadata (o : ClientOracle) (cache : Cache) (subject : String) :
    Metadata × Cache × List String :=
  match PyDict.get cache subject with
  | some m => (m, cache, [])
  | none =>
    let metadata := resolveMetadata o subject
    (metadata, PyDict.set cache subject metadata, [subject])

/-- Embedding of DataFetcher.clear_cache: drops every cached subject. -/
def clear_cache : Cache → Cache := fun _ => []

/-- Base URL of the upstream service (SocstatsClient.BASE_URL). -/
def BASE_URL : String := "https://sdb.socialstyrelsen.se/api"

/-- Embedding of SocstatsClient._build_url: drop empty path components and
join the rest onto the base with single slashes. -/
def build_url (base : String) (parts : List String) : String :=
  let filtered := parts.filter (fun p => p ≠ "")
  if filtered = [] then base
  else (if base.endsWith "/" then base else base ++ "/") ++ String.intercalate "/" filtered

/-- Outcome of one transport attempt inside _make_request: an HTTP response
with a status and parsed body, a timeout, or another transport failure
(requests.RequestException). -/
inductive AttemptOutcome (α : Type) where
  | response (status : Nat) (body : α)
  | timeout
  | connectionError (msg : String)
deriving DecidableEq

/-- The retry loop of SocstatsClient._make_request, from a given attempt
index: a received response is classified at once (404 to NotFound, 429 to
RateLimited, other >= 400 to SocstatsAPIError, else the parsed body), and
these classifications are raised immediately, never retried; only timeouts
and transport failures consume further attempts, and the last attempt wraps
them as SocstatsAPIError.  Returns the result together with the number of
attempts made.  When the attempt budget is zero the Python for loop body
never runs and the function falls through returning None. -/
def make_request_go {α : Type} (oracle : Nat → AttemptOutcome α) (url : String)
    (max_retries attempt : Nat) : Except PyErr (Option α) × Nat :=
  if _h : attempt < max_retries then
    match oracle attempt with
    | .response status _body =>
      if status = 404 then
        (.error (.notFound ("Resource not found: " ++ url)), attempt + 1)
      else if status = 429 then
        (.error (.rateLimit "API rate limit exceeded. Please wait before making more requests."),
          attempt + 1)
      else if 400 ≤ status then
        (.error (.api ("API request failed with status " ++ toString status)), attempt + 1)
      else
        match oracle attempt with
        | .response _ body => (.ok (some body), attempt + 1)
        | _ => (.ok none, attempt + 1)
    | .timeout =>
      if attempt < max_retries - 1 then make_request_go oracle url max_retries (attempt + 1)
      else (.error (.api ("Request timeout after " ++ toString max_retries ++ " attempts")),
        attempt + 1)
    | .connectionError msg =>
      if attempt < max_retries - 1 then make_request_go oracle url max_retries (attempt + 1)
      else (.error (.api ("Request failed after " ++ toString max_retries ++ " attempts: " ++ msg)),
        attempt + 1)
  else (.ok none, attempt)
termination_by max_retries - attempt
decreasing_by all_goals omega

/-- Embedding of SocstatsClient._make_request: the retry loop started at
attempt 0. -/
def make_request {α : Type} (oracle : Nat → AttemptOutcome α) (url : String)
    (max_retries : Nat) : Except PyErr (Option α) × Nat :=
  make_request_go oracle url max_retries 0

/-- The ids argument of get_variable_values, per its annotation
Union[str, List[str]] (with int list elements as in the docstring). -/
inductive IdsArg where
  | str (s : String)
  | list (xs : List Scalar)
deriving DecidableEq

/-- Python truthiness of the ids argument. -/
def IdsArg.truthy : IdsArg → Bool
  | .str s => s ≠ ""
  | .list xs => xs ≠ []

/-- The path segment get_variable_values appends for ids: a list is joined
with commas, a string is used as given. -/
def IdsArg.toSegment : IdsArg → String
  | .str s => s
  | .list xs => String.intercalate "," (xs.map Scalar.pyStr)

/-- Python truthiness of an optional string argument. -/
def optTruthyStr : Option String → Bool
  | none => false
  | some s => s ≠ ""

/-- Embedding of SocstatsClient.get_variable_values: reject a truthy ids
argument combined with a truthy text filter before building the endpoint,
then append the ids segment, or else the text filter segments, and issue
the request.  Returns the result and the list of requested URLs. -/
def get_variable_values (fetch : String → Except PyErr (List Obj))
    (version language subject varName : String)
    (ids : Option IdsArg) (text_filter : Option String) :
    Except PyErr (List Obj) × List String :=
  let idsT : Bool := match ids with | none => false | some a => a.truthy
  let tfT : Bool := optTruthyStr text_filter
  if idsT && tfT then
    (.error (.validation "Cannot specify both 'ids' and 'text_filter'"), [])
  else
    let parts := [version, language, subject, varName] ++
      (if idsT then [(ids.getD (.str "")).toSegment]
       else if tfT then ["text", text_filter.getD ""]
       else [])
    let endpoint := build_url BASE_URL parts
    (fetch endpoint, [endpoint])

/-- One logical HTTP request issued by get_data: the URL, and the query
parameter dict (None for next-page requests, which pass no params). -/
structure HttpRequest where
  url : String
  params : Option (List (String × Int))
deriving DecidableEq

/-- Transport oracle for get_data: the outcome of one logical request (an
error models _make_request raising). -/
abbrev Fetch := HttpRequest → Except PyErr PyObj

/-- The arguments of SocstatsClient.get_data, with the client's version and
language and the call's defaults. -/
structure GetDataArgs where
  subject : String
  version : String := "v1"
  language : String := "sv"
  matt : Option IdsInput := none
  per_sida : Int := 5000
  sida : Option Int := none
  auto_paginate : Bool := true
  max_pages : Option Int := none
  filters : List (String × Option IdsInput) := []
deriving DecidableEq

/-- The path components get_data builds: version, language, subject,
'resultat', the matt pair when matt is not None, then one key/value pair
per non-None filter, every value normalized by format_id_list (whose
ValueError propagates). -/
def buildParts (a : GetDataArgs) : Except PyErr (List String) := do
  let base := [a.version, a.language, a.subject, "resultat"]
  let withMatt ←
    match a.matt with
    | none => pure base
    | some v => do
      let s ← format_id_list v
      pure (base ++ ["matt", s])
  a.filters.foldlM (fun acc kv =>
    match kv.2 with
    | none => pure acc
    | some v => do
      let s ← format_id_list v
      pure (acc ++ [kv.1, s])) withMatt

/-- Response dict lookup result.get(k). -/
def objGet (o : PyObj) (k : String) : Option RVal := PyDict.get o k

/-- Response dict assignment result[k] = v. -/
def objSet (o : PyObj) (k : String) (v : RVal) : PyObj := PyDict.set o k v

/-- Python truthiness of result.get(k) (absent key is falsy). -/
def optTruthyR : Option RVal → Bool
  | none => false
  | some v => v.truthy

/-- result.get('data', []): the record array of a page (the upstream
protocol guarantees the data field is a record array when present). -/
def pyData (o : PyObj) : List Obj :=
  match objGet o "data" with
  | some (.records rs) => rs
  | _ => []

/-- The cap test of the pagination loop, 'if max_pages and page_count >=
max_pages': max_pages None or 0 is falsy, so no cap applies. -/
def capReached (max_pages : Option Int) (page_count : Nat) : Bool :=
  match max_pages with
  | none => false
  | some m => m ≠ 0 ∧ (page_count : Int) ≥ m

/-- The while loop of get_data's auto-pagination: while the current page
carries a truthy nasta_sida, stop when the page cap is reached (a partial
result, not an error), otherwise request the next-page URL directly (no
params), append its records to the accumulator and count the page.  The
fuel argument only bounds the recursion; every theorem supplies more fuel
than pages, so the fuel-exhausted error is never reached there.  A truthy
non-string nasta_sida is outside the upstream protocol and is mapped to an
error.  Returns (final page object, accumulated records, page count) plus
the requests issued. -/
def paginate_loop (fetch : Fetch) (max_pages : Option Int) :
    Nat → PyObj → List Obj → Nat → Except PyErr (PyObj × List Obj × Nat) × List HttpRequest
  | 0, _, _, _ => (.error (.api "pagination fuel exhausted"), [])
  | fuel + 1, result, all_data, page_count =>
    if optTruthyR (objGet result "nasta_sida") then
      if capReached max_pages page_count then
        (.ok (result, all_data, page_count), [])
      else
        match objGet result "nasta_sida" with
        | some (.scalar (.str next_url)) =>
          let req : HttpRequest := ⟨next_url, none⟩
          match fetch req with
          | .error e => (.error e, [req])
          | .ok r2 =>
            let rest := paginate_loop fetch max_pages fuel r2 (all_data ++ pyData r2) (page_count + 1)
            (rest.1, req :: rest.2)
        | _ => (.error (.api "next page reference is not a URL string"), [])
    else (.ok (result, all_data, page_count), [])

/-- Embedding of SocstatsClient.get_data: build the endpoint (filter
normalization errors propagate before any request), issue the initial
request with per_sida (when not the default) and sida (when given) as query
params, and, only when auto_paginate is on, the first page has a truthy
nasta_sida and no explicit page was requested, run the pagination loop and
overwrite the data, sida, per_sida and sidor fields of the final page
object with the aggregate values.  Returns the result and the issued
requests in order. -/
def initParams (a : GetDataArgs) : List (String × Int) :=
  (if a.per_sida ≠ 5000 then [("per_sida", a.per_sida)] else []) ++
  (match a.sida with | some s => [("sida", s)] | none => [])

/-- The initial data request: the endpoint built from the path components
with the query parameter dict (always a dict, possibly empty, never None). -/
def initRequest (a : GetDataArgs) (parts : List String) : HttpRequest :=
  ⟨build_url BASE_URL parts, some (initParams a)⟩

/-- The aggregate-result update after pagination: result['data'],
result['sida'], result['per_sida'] and result['sidor'] are overwritten in
this order on the final page object. -/
def aggregateUpdate (res : PyObj) (all_data : List Obj) (page_count : Nat) : PyObj :=
  objSet (objSet (objSet (objSet res "data" (.records all_data))
    "sida" (.scalar (.num 1))) "per_sida" (.scalar (.num all_data.length)))
    "sidor" (.scalar (.num page_count))

def get_data (fetch : Fetch) (a : GetDataArgs) (fuel : Nat) :
    Except PyErr PyObj × List HttpRequest :=
  match buildParts a with
  | .error e => (.error e, [])
  | .ok parts =>
    let req0 := initRequest a parts
    match fetch req0 with
    | .error e => (.error e, [req0])
    | .ok result =>
      if a.auto_paginate ∧ optTruthyR (objGet result "nasta_sida") ∧ a.sida = none then
        match paginate_loop fetch a.max_pages fuel result (pyData result) 1 with
        | (.error e, tr) => (.error e, req0 :: tr)
        | (.ok (res, all_data, page_count), tr) =>
          (.ok (aggregateUpdate res all_data page_count), req0 :: tr)
      else (.ok result, [req0])

/-- The empty DataFrame returned when no data came back. -/
def emptyDF : DataFrame := ⟨[], [], []⟩

/-- Embedding of DataFetcher.get_data_as_dataframe (reached through
SocstatsClient.get_data_as_dataframe, which exposes no sida or per_sida, so
those stay at their defaults): fetch the raw result (its errors propagate),
convert the records to a DataFrame with the subject and paging attrs, and,
when metadata inclusion is requested, resolve the subject's metadata
(best-effort, never raising) and enrich.  Returns the frame, the updated
metadata cache and the issued data requests. -/
def get_data_as_dataframe (fetch : Fetch) (o : ClientOracle) (cache : Cache)
    (a : GetDataArgs) (include_metadata : Bool) (fuel : Nat) :
    Except PyErr DataFrame × Cache × List HttpRequest :=
  match get_data fetch { a with sida := none, per_sida := 5000 } fuel with
  | (.error e, tr) => (.error e, cache, tr)
  | (.ok result, tr) =>
    let data := pyData result
    if data = [] then (.ok emptyDF, cache, tr)
    else
      let df0 := dfOfRecords data
      let df1 := { df0 with attrs :=
        [("subject", (objGet result "amne").getD (.scalar (.str a.subject))),
         ("total_pages", (objGet result "sidor").getD (.scalar (.num 1))),
         ("records_per_page", (objGet result "per_sida").getD (.scalar (.num data.length)))] }
      if include_metadata then
        let r := get_subject_metadata o cache a.subject
        (.ok (enrich_dataframe df1 r.1), r.2.1, tr)
      else (.ok df1, cache, tr)

/-- Distinct next-page URLs for the canonical page chain used to exercise
pagination: the URL of page i has length i. -/
def urlFor (i : Nat) : String := ⟨List.replicate i 'a'⟩

/-- The canonical page object for page i of a chain of pages: its record
list, and a nasta_sida link to page i+1 unless it is the last page. -/
def pageObj (pages : List (List Obj)) (i : Nat) : PyObj :=
  ("data", .records (pages.getD i [])) ::
    (if i + 1 < pages.length then [("nasta_sida", .scalar (.str (urlFor (i + 1))))] else [])

/-- Transport oracle serving the canonical page chain: the initial request
(the one carrying a params dict) yields page 0; a next-page request (no
params) yields the page its URL length designates. -/
def chainFetch (pages : List (List Obj)) : Fetch := fun req =>
  match req.params with
  | some _ => .ok (pageObj pages 0)
  | none => .ok (pageObj pages req.url.length)

/-- Number of column labels equal to a in a column list. -/
def countOcc (l : List String) (a : String) : Nat :=
  match l with
  | [] => 0
  | x :: xs => (if x = a then 1 else 0) + countOcc xs a

/-- The label (if any) that the enrichment column loop would add for a
column name: none for excluded columns, the special case 'ar', names not
ending in 'Id', a derived variable missing from the metadata mapping, or a
metadata table missing its id or text column. -/
def producesLabel (metadata : Metadata) (c : String) : Option String :=
  if c ∈ EXCLUDED_COLUMNS then none
  else if c = "ar" then none
  else if pyEndsWith c "Id" then
    match PyDict.get metadata (.str (pyToLower (c.dropRight 2))) with
    | some meta_df =>
      if "id" ∈ meta_df.cols ∧ "text" ∈ meta_df.cols then some (labelName c) else none
    | none => none
  else none

/-- Whether an Except value is a success (the call did not raise). -/
def isOkE {ε α : Type} : Except ε α → Bool
  | .ok _ => true
  | .error _ => false

/-- Whether a variable-values fetch succeeded with a non-empty value list
(the condition under which _get_subject_metadata stores the variable). -/
def okNonempty : Except PyErr (List Obj) → Bool
  | .ok vals => vals ≠ []
  | .error _ => false

/-- A concrete client oracle for exercising the metadata resolver: the
variable list names kon and region; the kon values resolve, the region
values fetch raises. -/
def cacheOracle : ClientOracle where
  subjectVariables := fun _ => .ok [[("namn", .str "kon")], [("namn", .str "region")]]
  variableValues := fun _ v =>
    if v = .str "kon" then .ok [[("id", .num 1), ("text", .str "Man")]]
    else .error (.api "connection reset")

/-! Theorems -/

/-- C4: the normalizer maps a scalar integer or string to its string form,
maps a list, tuple, or integer range to the comma-join of its elements'
string forms preserving iteration order (in particular normalize([1,2,3]) =
"1,2,3", normalize(range(2018,2021)) = "2018,2019,2020",
normalize("already,joined") = "already,joined"), and fails with the invalid
filter type error (Python ValueError) on every input of any other type. -/
theorem format_id_list_spec :
    (∀ n : Int, format_id_list (.int n) = .ok (toString n)) ∧
    (∀ s : String, format_id_list (.str s) = .ok s) ∧
    (∀ xs : List Scalar,
      format_id_list (.list xs) = .ok (String.intercalate "," (xs.map Scalar.pyStr))) ∧
    (∀ xs : List Scalar,
      format_id_list (.tuple xs) = .ok (String.intercalate "," (xs.map Scalar.pyStr))) ∧
    (∀ a b : Int,
      format_id_list (.range a b) =
        .ok (String.intercalate "," (((List.range (b - a).toNat).map (fun i => a + i)).map toString))) ∧
    format_id_list (.list [.int 1, .int 2, .int 3]) = .ok "1,2,3" ∧
    format_id_list (.range 2018 2021) = .ok "2018,2019,2020" ∧
    format_id_list (.str "already,joined") = .ok "already,joined" ∧
    (∀ ty : String, ∃ msg : String, format_id_list (.other ty) = .error (.valueError msg)) :=
  ⟨fun _ => rfl, fun _ => rfl, fun _ => rfl, fun _ => rfl, fun _ _ => rfl,
    by decide, by decide, rfl, fun _ => ⟨_, rfl⟩⟩

/-- C6: a response with HTTP status 404 makes the request executor fail at
once with NotFound, and one with status 429 makes it fail at once with
RateLimited; in both cases exactly one attempt is made, for every configured
attempt budget of at least one (the constructor coerces any falsy budget to
the default 3, so the budget is always at least one). -/
theorem make_request_404_429_no_retry {α : Type} (oracle : Nat → AttemptOutcome α)
    (url : String) (max_retries : Nat) (body : α) (h1 : 1 ≤ max_retries) :
    (oracle 0 = .response 404 body →
      make_request oracle url max_retries =
        (.error (.notFound ("Resource not found: " ++ url)), 1)) ∧
    (oracle 0 = .response 429 body →
      make_request oracle url max_retries =
        (.error (.rateLimit "API rate limit exceeded. Please wait before making more requests."),
          1)) := by
  have hpos : 0 < max_retries := h1
  constructor <;> intro h0 <;>
    · rw [make_request, make_request_go]
      simp [hpos, h0]

/-- C6 witness: a transport that answers 404 on every attempt produces
NotFound after exactly one attempt with the default budget of 3. -/
theorem make_request_404_429_no_retry_witness :
    make_request (fun _ => AttemptOutcome.response 404 SVal.null) "https://sdb.socialstyrelsen.se/api/v1" 3 =
      (.error (.notFound "Resource not found: https://sdb.socialstyrelsen.se/api/v1"), 1) :=
  (make_request_404_429_no_retry (fun _ => AttemptOutcome.response 404 SVal.null)
    "https://sdb.socialstyrelsen.se/api/v1" 3 SVal.null (by decide)).1 rfl

/-- C5 counterexample: with an explicit id set that is empty and a text
filter both supplied, the call does not fail with ValidationError: it issues
one HTTP request and returns its result, because the source's guard tests
Python truthiness and an empty list is falsy. -/
theorem get_variable_values_empty_ids_counterexample :
    (get_variable_values (fun _ => .ok ([] : List Obj)) "v1" "sv" "dodsorsaker" "region"
        (some (.list [])) (some "botten")).2.length = 1 ∧
    (get_variable_values (fun _ => .ok ([] : List Obj)) "v1" "sv" "dodsorsaker" "region"
        (some (.list [])) (some "botten")).1 = .ok [] := by
  decide

/-- C5 amended: for every variable-values lookup in which a truthy
(non-empty) id set and a truthy (non-empty) text filter are both supplied,
the call fails with ValidationError and no HTTP request is issued. -/
theorem get_variable_values_both_filters_rejected
    (fetch : String → Except PyErr (List Obj))
    (version language subject varName : String) (ids : IdsArg) (tf : String)
    (hids : ids.truthy = true) (htf : tf ≠ "") :
    get_variable_values fetch version language subject varName (some ids) (some tf) =
      (.error (.validation "Cannot specify both 'ids' and 'text_filter'"), []) := by
  simp [get_variable_values, optTruthyStr, hids, htf]

/-- C5 witness: a concrete lookup with ids and a text filter both present
and non-empty is rejected without any request. -/
theorem get_variable_values_both_filters_rejected_witness :
    get_variable_values (fun _ => .ok ([] : List Obj)) "v1" "sv" "dodsorsaker" "region"
        (some (.str "1,3")) (some "botten") =
      (.error (.validation "Cannot specify both 'ids' and 'text_filter'"), []) :=
  get_variable_values_both_filters_rejected _ "v1" "sv" "dodsorsaker" "region"
    (.str "1,3") "botten" (by decide) (by decide)

/-- Assigning a key and then looking it up yields the assigned value. -/
theorem PyDict.get_set_self {α β : Type} [DecidableEq α] (d : List (α × β)) (k : α) (v : β) :
    PyDict.get (PyDict.set d k v) k = some v := by
  induction d with
  | nil => simp [PyDict.set, PyDict.get]
  | cons p ps ih =>
    by_cases h : p.1 = k
    · simp [PyDict.set, PyDict.get, h]
    · simp [PyDict.set, PyDict.get, h, ih]

/-- Assigning one key leaves lookups of other keys unchanged. -/
theorem PyDict.get_set_ne {α β : Type} [DecidableEq α] (d : List (α × β)) (k k' : α) (v : β)
    (h : k' ≠ k) : PyDict.get (PyDict.set d k v) k' = PyDict.get d k' := by
  have h' : k ≠ k' := Ne.symm h
  induction d with
  | nil => simp [PyDict.set, PyDict.get, h']
  | cons p ps ih =>
    by_cases hp : p.1 = k
    · simp [PyDict.set, PyDict.get, hp, h']
    · simp [PyDict.set, PyDict.get, hp, ih]

/-- A key is present after an assignment exactly when it is the assigned key
or was present before. -/
theorem PyDict.isSome_get_set {α β : Type} [DecidableEq α] (d : List (α × β)) (k k' : α) (v : β) :
    (PyDict.get (PyDict.set d k v) k').isSome = true ↔
      k' = k ∨ (PyDict.get d k').isSome = true := by
  by_cases h : k' = k
  · subst h
    simp [PyDict.get_set_self]
  · rw [PyDict.get_set_ne d k k' v h]
    simp [h]

/-- One iteration of the variable loop adds exactly the variables whose
entry names them with a truthy namn and whose value fetch succeeded with a
non-empty list. -/
theorem get_metaStep_isSome (o : ClientOracle) (s : String) (md : Metadata) (r : Obj) (k : SVal) :
    (PyDict.get (metaStep o s md r) k).isSome = true ↔
      (PyDict.get md k).isSome = true ∨
      (PyDict.get r "namn" = some k ∧ k.truthy = true ∧
        okNonempty (o.variableValues s k) = true) := by
  unfold metaStep
  cases hn : PyDict.get r "namn" with
  | none => simp
  | some v =>
    by_cases hvk : v = k
    · subst hvk
      cases ht : v.truthy with
      | false => simp [ht]
      | true =>
        cases hv : o.variableValues s v with
        | error e => simp [ht, hv, okNonempty]
        | ok vals =>
          by_cases he : vals = []
          · simp [ht, hv, he, okNonempty]
          · simp [ht, hv, he, okNonempty, PyDict.isSome_get_set]
    · have hrhs : ¬(some v = some k ∧ k.truthy = true ∧
          okNonempty (o.variableValues s k) = true) := by
        rintro ⟨hsome, _, _⟩
        exact hvk (Option.some.inj hsome)
      have hkv : ¬k = v := fun he => hvk he.symm
      cases ht : v.truthy with
      | false =>
        simp [ht, hrhs]
        exact fun he => absurd he hvk
      | true =>
        cases hv : o.variableValues s v with
        | error e =>
          simp [ht, hv, hrhs]
          exact fun he => absurd he hvk
        | ok vals =>
          by_cases he : vals = []
          · simp [ht, hv, he, hrhs]
            exact fun hvk2 => absurd hvk2 hvk
          · simp [ht, hv, he, hrhs, PyDict.isSome_get_set, hkv]
            exact fun hvk2 => absurd hvk2 hvk

/-- Folding the variable loop over a variable list: a variable is present in
the result exactly when it was already present or some entry resolves it
successfully and non-emptily. -/
theorem get_foldl_metaStep_isSome (o : ClientOracle) (s : String) (vars : List Obj)
    (md : Metadata) (k : SVal) :
    (PyDict.get (vars.foldl (metaStep o s) md) k).isSome = true ↔
      (PyDict.get md k).isSome = true ∨
      ∃ r ∈ vars, PyDict.get r "namn" = some k ∧ k.truthy = true ∧
        okNonempty (o.variableValues s k) = true := by
  induction vars generalizing md with
  | nil => simp
  | cons r rs ih =>
    simp only [List.foldl_cons]
    rw [ih, get_metaStep_isSome]
    simp only [List.mem_cons]
    constructor
    · rintro (⟨h | h⟩ | ⟨r', hr', h⟩)
      · exact .inl h
      · exact .inr ⟨r, .inl rfl, h⟩
      · exact .inr ⟨r', .inr hr', h⟩
    · rintro (h | ⟨r', hr' | hr', h⟩)
      · exact .inl (.inl h)
      · subst hr'
        exact .inl (.inr h)
      · exact .inr ⟨r', hr', h⟩

/-- A cache hit serves the stored mapping with no fetch. -/
theorem gsm_hit (o : ClientOracle) (cache : Cache) (s : String) (m : Metadata)
    (h : PyDict.get cache s = some m) :
    get_subject_metadata o cache s = (m, cache, []) := by
  unfold get_subject_metadata
  rw [h]

/-- A cache miss resolves the subject, stores the result, and fetches the
variable list once. -/
theorem gsm_miss (o : ClientOracle) (cache : Cache) (s : String)
    (h : PyDict.get cache s = none) :
    get_subject_metadata o cache s =
      (resolveMetadata o s, PyDict.set cache s (resolveMetadata o s), [s]) := by
  unfold get_subject_metadata
  rw [h]

/-- C8: for every subject not yet cached, two sequential metadata
resolutions trigger exactly one underlying variable-list fetch (the first
fetches, the second is served from the cache and returns the same mapping),
and after clear() a subsequent resolution for that subject performs the
variable-list fetch again. -/
theorem metadata_cache_single_fetch (o : ClientOracle) (cache : Cache) (s : String)
    (h : PyDict.get cache s = none) :
    (get_subject_metadata o cache s).2.2 = [s] ∧
    (get_subject_metadata o (get_subject_metadata o cache s).2.1 s).2.2 = [] ∧
    (get_subject_metadata o (get_subject_metadata o cache s).2.1 s).1 =
      (get_subject_metadata o cache s).1 ∧
    (get_subject_metadata o
      (clear_cache (get_subject_metadata o (get_subject_metadata o cache s).2.1 s).2.1) s).2.2 =
      [s] := by
  have h1 := gsm_miss o cache s h
  have h2 := gsm_hit o (PyDict.set cache s (resolveMetadata o s)) s (resolveMetadata o s)
    (PyDict.get_set_self cache s (resolveMetadata o s))
  have h3 := gsm_miss o ([] : Cache) s rfl
  simp [h1, h2, clear_cache, h3]

/-- C8 witness: a concrete fetcher state exercising fetch, cache hit and
re-fetch after clearing. -/
theorem metadata_cache_single_fetch_witness :
    ((get_subject_metadata cacheOracle [] "amning").2.2 = ["amning"] ∧
    (get_subject_metadata cacheOracle (get_subject_metadata cacheOracle [] "amning").2.1 "amning").2.2 = [] ∧
    (get_subject_metadata cacheOracle (get_subject_metadata cacheOracle [] "amning").2.1 "amning").1 =
      (get_subject_metadata cacheOracle [] "amning").1 ∧
    (get_subject_metadata cacheOracle
      (clear_cache (get_subject_metadata cacheOracle
        (get_subject_metadata cacheOracle [] "amning").2.1 "amning").2.1) "amning").2.2 =
      ["amning"]) :=
  metadata_cache_single_fetch cacheOracle [] "amning" rfl

/-- C9: metadata resolution failure handling.  First, if fetching the
subject's variable list fails, the resolution returns an empty mapping
rather than raising.  Second, when the variable list is fetched, a variable
is present in the mapping exactly when some entry names it (with a truthy
namn) and its value fetch succeeded with a non-empty list: a variable whose
value fetch failed is simply absent while the remaining variables still
resolve.  Third, no metadata or enrichment failure is ever surfaced by a
data-fetch-with-enrichment call: whenever the primary data fetch succeeds,
get_data_as_dataframe with metadata inclusion succeeds, for every metadata
oracle. -/
theorem metadata_failures_swallowed :
    (∀ (o : ClientOracle) (cache : Cache) (s : String) (e : PyErr),
      PyDict.get cache s = none → o.subjectVariables s = .error e →
      (get_subject_metadata o cache s).1 = []) ∧
    (∀ (o : ClientOracle) (cache : Cache) (s : String) (vars : List Obj) (k : SVal),
      PyDict.get cache s = none → o.subjectVariables s = .ok vars →
      ((PyDict.get (get_subject_metadata o cache s).1 k).isSome = true ↔
        ∃ r ∈ vars, PyDict.get r "namn" = some k ∧ k.truthy = true ∧
          okNonempty (o.variableValues s k) = true)) ∧
    (∀ (fetch : Fetch) (o : ClientOracle) (cache : Cache) (a : GetDataArgs) (fuel : Nat),
      isOkE (get_data fetch { a with sida := none, per_sida := 5000 } fuel).1 = true →
      isOkE (get_data_as_dataframe fetch o cache a true fuel).1 = true) := by
  refine ⟨?_, ?_, ?_⟩
  · intro o cache s e hc he
    rw [gsm_miss o cache s hc]
    simp [resolveMetadata, he]
  · intro o cache s vars k hc hv
    rw [gsm_miss o cache s hc]
    show (PyDict.get (resolveMetadata o s) k).isSome = true ↔ _
    unfold resolveMetadata
    rw [hv, get_foldl_metaStep_isSome]
    simp [PyDict.get]
  · intro fetch o cache a fuel h
    unfold get_data_as_dataframe
    rcases hg : get_data fetch { a with sida := none, per_sida := 5000 } fuel with ⟨exc, tr⟩
    cases exc with
    | error e =>
      rw [hg] at h
      simp [isOkE] at h
    | ok result =>
      by_cases hd : pyData result = []
      · simp [hd, isOkE]
      · simp [hd, isOkE]

/-- C9 witness: with a failing variable-list oracle the mapping is empty;
with cacheOracle the variable kon (whose values resolve) is present and
region (whose value fetch raises) is absent; and a one-page data fetch with
enrichment succeeds even though the region metadata fetch raises. -/
theorem metadata_failures_swallowed_witness :
    (get_subject_metadata
      (ClientOracle.mk (fun _ => .error (.api "boom")) (fun _ _ => .error (.api "boom")))
      [] "amning").1 = [] ∧
    (PyDict.get (get_subject_metadata cacheOracle [] "amning").1 (.str "kon")).isSome = true ∧
    ¬(PyDict.get (get_subject_metadata cacheOracle [] "amning").1 (.str "region")).isSome = true ∧
    isOkE (get_data_as_dataframe (chainFetch [[[("konId", SVal.num 1)]]]) cacheOracle []
      { subject := "amning" } true 1).1 = true := by
  refine ⟨metadata_failures_swallowed.1 _ [] "amning" (.api "boom") rfl rfl, ?_, ?_, ?_⟩
  · exact (metadata_failures_swallowed.2.1 cacheOracle [] "amning"
      [[("namn", .str "kon")], [("namn", .str "region")]] (.str "kon") rfl rfl).mpr (by decide)
  · intro hcon
    exact absurd ((metadata_failures_swallowed.2.1 cacheOracle [] "amning"
      [[("namn", .str "kon")], [("namn", .str "region")]] (.str "region") rfl rfl).mp hcon)
      (by decide)
  · exact metadata_failures_swallowed.2.2 _ cacheOracle [] { subject := "amning" } 1 (by decide)

/-- C10: for every uncached subject, whatever mapping the resolution
computes (in particular the empty one after a variable-list failure, or a
partial one) is stored in the cache under that subject, and a subsequent
resolution of the same subject returns that same mapping from the cache
with no new fetch; in the variable-list-failure case the stored mapping is
the empty mapping. -/
theorem failed_metadata_cached (o : ClientOracle) (cache : Cache) (s : String)
    (h : PyDict.get cache s = none) :
    PyDict.get (get_subject_metadata o cache s).2.1 s =
      some (get_subject_metadata o cache s).1 ∧
    get_subject_metadata o (get_subject_metadata o cache s).2.1 s =
      ((get_subject_metadata o cache s).1, (get_subject_metadata o cache s).2.1, []) ∧
    (∀ e : PyErr, o.subjectVariables s = .error e →
      (get_subject_metadata o cache s).1 = [] ∧
      PyDict.get (get_subject_metadata o cache s).2.1 s = some []) := by
  have h1 := gsm_miss o cache s h
  have hset := PyDict.get_set_self cache s (resolveMetadata o s)
  have h2 := gsm_hit o (PyDict.set cache s (resolveMetadata o s)) s (resolveMetadata o s) hset
  refine ⟨?_, ?_, ?_⟩
  · rw [h1]
    exact hset
  · rw [h1]
    simpa using h2
  · intro e he
    have hres : resolveMetadata o s = [] := by simp [resolveMetadata, he]
    rw [h1]
    refine ⟨hres, ?_⟩
    show PyDict.get (PyDict.set cache s (resolveMetadata o s)) s = some []
    rw [hres] at hset ⊢
    exact hset

/-- C10 witness: a subject whose variable-list fetch raises gets the empty
mapping cached and served from the cache on the second resolution. -/
theorem failed_metadata_cached_witness :
    PyDict.get (get_subject_metadata
        (ClientOracle.mk (fun _ => .error (.api "down")) (fun _ _ => .error (.api "down")))
        [] "dodsorsaker").2.1 "dodsorsaker" =
      some (get_subject_metadata
        (ClientOracle.mk (fun _ => .error (.api "down")) (fun _ _ => .error (.api "down")))
        [] "dodsorsaker").1 ∧
    get_subject_metadata
        (ClientOracle.mk (fun _ => .error (.api "down")) (fun _ _ => .error (.api "down")))
        (get_subject_metadata
          (ClientOracle.mk (fun _ => .error (.api "down")) (fun _ _ => .error (.api "down")))
          [] "dodsorsaker").2.1 "dodsorsaker" =
      ((get_subject_metadata
          (ClientOracle.mk (fun _ => .error (.api "down")) (fun _ _ => .error (.api "down")))
          [] "dodsorsaker").1,
        (get_subject_metadata
          (ClientOracle.mk (fun _ => .error (.api "down")) (fun _ _ => .error (.api "down")))
          [] "dodsorsaker").2.1, []) ∧
    (get_subject_metadata
        (ClientOracle.mk (fun _ => .error (.api "down")) (fun _ _ => .error (.api "down")))
        [] "dodsorsaker").1 = [] := by
  have T := failed_metadata_cached
    (ClientOracle.mk (fun _ => .error (.api "down")) (fun _ _ => .error (.api "down")))
    [] "dodsorsaker" rfl
  exact ⟨T.1, T.2.1, (T.2.2 (.api "down") rfl).1⟩

/-- Unfolding of get_data once the path components are built. -/
theorem get_data_ok_parts (fetch : Fetch) (a : GetDataArgs) (fuel : Nat) (parts : List String)
    (hp : buildParts a = .ok parts) :
    get_data fetch a fuel =
      match fetch (initRequest a parts) with
      | .error e => (.error e, [initRequest a parts])
      | .ok result =>
        if a.auto_paginate ∧ optTruthyR (objGet result "nasta_sida") ∧ a.sida = none then
          match paginate_loop fetch a.max_pages fuel result (pyData result) 1 with
          | (.error e, tr) => (.error e, initRequest a parts :: tr)
          | (.ok (res, all_data, page_count), tr) =>
            (.ok (aggregateUpdate res all_data page_count), initRequest a parts :: tr)
        else (.ok result, [initRequest a parts]) := by
  unfold get_data
  rw [hp]

/-- C7: for every data fetch in which auto-pagination is disabled or an
explicit page index was requested, no second page fetch ever occurs:
exactly one HTTP data request is issued, for every transport oracle (so
regardless of whether the first page carries a next-page reference and of
whether the request succeeds). -/
theorem get_data_single_page_one_request (fetch : Fetch) (a : GetDataArgs) (fuel : Nat)
    (hb : isOkE (buildParts a) = true)
    (hcase : a.auto_paginate = false ∨ a.sida ≠ none) :
    (get_data fetch a fuel).2.length = 1 := by
  rcases hbe : buildParts a with e | parts
  · rw [hbe] at hb
    simp [isOkE] at hb
  · rw [get_data_ok_parts fetch a fuel parts hbe]
    cases hf : fetch (initRequest a parts) with
    | error e => simp
    | ok result =>
      rcases hcase with hap | hsida
      · simp [hap]
      · simp [hsida]

/-- C7 witness: with a first page that does carry a next-page link, both
disabling auto-pagination and requesting an explicit page issue exactly one
request. -/
theorem get_data_single_page_one_request_witness :
    (get_data (chainFetch [[[("v", SVal.num 100)]], [[("v", SVal.num 200)]]])
      { subject := "amning", auto_paginate := false } 5).2.length = 1 ∧
    (get_data (chainFetch [[[("v", SVal.num 100)]], [[("v", SVal.num 200)]]])
      { subject := "amning", sida := some 2 } 5).2.length = 1 :=
  ⟨get_data_single_page_one_request _ _ 5 (by decide) (.inl rfl),
   get_data_single_page_one_request _ _ 5 (by decide) (.inr (by decide))⟩

/-- Looking up a freshly appended column in a row extended by one cell
yields that cell. -/
theorem rowGet_append_fresh (cols : List String) (r : List (Option SVal)) (l : String)
    (v : Option SVal) (hl : l ∉ cols) (hlen : r.length = cols.length) :
    rowGet (cols ++ [l]) (r ++ [v]) l = v := by
  induction cols generalizing r with
  | nil =>
    cases r with
    | nil => simp [rowGet]
    | cons x xs => simp at hlen
  | cons c cs ih =>
    cases r with
    | nil => simp at hlen
    | cons x xs =>
      have hcl : c ≠ l := fun he => hl (he ▸ List.mem_cons_self c cs)
      simp only [List.cons_append, rowGet, if_neg hcl]
      exact ih xs (fun hm => hl (List.mem_cons_of_mem c hm)) (by simpa using hlen)

/-- Appending one cell to each row and reading the appended column back
yields the assigned series (rows well-formed against the columns). -/
theorem map_rowGet_append (cols : List String) (l : String) (hl : l ∉ cols) :
    ∀ (rows : List (List (Option SVal))) (vals : List (Option SVal)),
    (∀ r ∈ rows, r.length = cols.length) → vals.length = rows.length →
    ((rows.zip vals).map (fun p => p.1 ++ [p.2])).map (fun r => rowGet (cols ++ [l]) r l) =
      vals := by
  intro rows
  induction rows with
  | nil =>
    intro vals _ hlen
    cases vals with
    | nil => rfl
    | cons v vs => simp at hlen
  | cons r rs ih =>
    intro vals hwf hlen
    cases vals with
    | nil => simp at hlen
    | cons v vs =>
      simp only [List.zip_cons_cons, List.map_cons]
      rw [rowGet_append_fresh cols r l v hl (hwf r (List.mem_cons_self r rs))]
      rw [ih vs (fun r' hr' => hwf r' (List.mem_cons_of_mem r hr')) (by simpa using hlen)]

/-- Reading back a freshly assigned column of a well-formed frame yields the
assigned series. -/
theorem setCol_colVals_fresh (df : DataFrame) (l : String) (vals : List (Option SVal))
    (hwf : df.WF) (hl : l ∉ df.cols) (hlen : vals.length = df.rows.length) :
    (df.setCol l vals).colVals l = vals := by
  unfold DataFrame.setCol
  rw [if_neg hl]
  show ((df.rows.zip vals).map (fun p => p.1 ++ [p.2])).map (fun r => rowGet (df.cols ++ [l]) r l)
    = vals
  exact map_rowGet_append df.cols l hl df.rows vals hwf hlen

/-- find? distributes over append, preferring the left part. -/
theorem find?_append_or {α : Type} (p : α → Bool) (l1 l2 : List α) :
    (l1 ++ l2).find? p = ((l1.find? p).orElse (fun _ => l2.find? p)) := by
  induction l1 with
  | nil => simp
  | cons x xs ih =>
    by_cases h : p x
    · simp [List.find?_cons_of_pos _ h, Option.orElse]
    · simp [List.find?_cons_of_neg _ h, ih]

/-- The dict-of-pairs lookup returns the value of the LAST pair carrying the
key: it equals a first-match search through the reversed pair list. -/
theorem pairsLookup_eq_reverse_find {α β : Type} [DecidableEq α] (d : List (α × β)) (k : α) :
    pairsLookup d k = (d.reverse.find? (fun p => decide (p.1 = k))).map Prod.snd := by
  induction d with
  | nil => rfl
  | cons p ps ih =>
    simp only [pairsLookup, List.reverse_cons]
    rw [find?_append_or]
    cases hf : ps.reverse.find? (fun p => decide (p.1 = k)) with
    | some q =>
      rw [ih, hf]
      simp [Option.orElse]
    | none =>
      rw [ih, hf]
      by_cases hk : p.1 = k
      · simp [Option.orElse, List.find?, hk]
      · simp [Option.orElse, List.find?, hk]

/-- A key carried by no pair is absent from the dict of pairs. -/
theorem pairsLookup_eq_none {α β : Type} [DecidableEq α] (d : List (α × β)) (k : α)
    (h : ∀ p ∈ d, p.1 ≠ k) : pairsLookup d k = none := by
  induction d with
  | nil => rfl
  | cons p ps ih =>
    simp only [pairsLookup]
    rw [ih (fun q hq => h q (List.mem_cons_of_mem p hq))]
    rw [if_neg (h p (List.mem_cons_self p ps))]

/-- C3 counterexample: a metadata table in which id 1 occurs twice, first
with text A and then with text B, labels a row carrying id 1 with B, the
LAST occurrence, not with A as the claim states. -/
theorem add_label_first_occurrence_refuted :
    (add_label_column ⟨["konId"], [[some (.num 1)]], []⟩ "konId"
        (dfOfRecords [[("id", .num 1), ("text", .str "A")],
          [("id", .num 1), ("text", .str "B")]])).colVals "kon_label" = [some (.str "B")] ∧
    ¬(add_label_column ⟨["konId"], [[some (.num 1)]], []⟩ "konId"
        (dfOfRecords [[("id", .num 1), ("text", .str "A")],
          [("id", .num 1), ("text", .str "B")]])).colVals "kon_label" = [some (.str "A")] := by
  decide

/-- C3 amended: the value-to-label mapping built from a Variable Metadata
Table's (id, text) pairs associates a repeated id with the label of its
LAST occurrence (the label series equals a first-match search through the
reversed pair list), and every row whose identifier value has no entry in
the mapping gets the missing marker (none) as its label. -/
theorem add_label_column_last_occurrence (df meta_df : DataFrame) (c : String)
    (hwf : df.WF) (hid : "id" ∈ meta_df.cols) (htx : "text" ∈ meta_df.cols)
    (hfresh : labelName c ∉ df.cols) :
    (add_label_column df c meta_df).colVals (labelName c) =
      (df.colVals c).map (fun v =>
        match v with
        | none => none
        | some x =>
          match ((meta_df.colVals "id").zip (meta_df.colVals "text")).reverse.find?
              (fun p => decide (p.1 = some x)) with
          | some q => q.2
          | none => none) ∧
    (∀ x : SVal,
      (∀ p ∈ (meta_df.colVals "id").zip (meta_df.colVals "text"), p.1 ≠ some x) →
      seriesMap ((meta_df.colVals "id").zip (meta_df.colVals "text")) (some x) = none) := by
  constructor
  · unfold add_label_column
    rw [if_pos ⟨hid, htx⟩]
    rw [setCol_colVals_fresh df (labelName c) _ hwf hfresh (by simp [DataFrame.colVals])]
    have hfun : (seriesMap ((meta_df.colVals "id").zip (meta_df.colVals "text"))) =
        (fun v : Option SVal =>
          match v with
          | none => none
          | some x =>
            match ((meta_df.colVals "id").zip (meta_df.colVals "text")).reverse.find?
                (fun p => decide (p.1 = some x)) with
            | some q => q.2
            | none => none) := by
      funext v
      cases v with
      | none => rfl
      | some x =>
        simp only [seriesMap]
        rw [pairsLookup_eq_reverse_find]
        cases ((meta_df.colVals "id").zip (meta_df.colVals "text")).reverse.find?
            (fun p => decide (p.1 = some x)) with
        | some q => rfl
        | none => rfl
    rw [hfun]
  · intro x hx
    simp only [seriesMap]
    rw [pairsLookup_eq_none _ _ hx]

/-- C3 witness: the amended statement evaluated at the duplicate-id table. -/
theorem add_label_column_last_occurrence_witness :
    (add_label_column ⟨["konId"], [[some (.num 1)], [some (.num 7)]], []⟩ "konId"
        (dfOfRecords [[("id", .num 1), ("text", .str "A")],
          [("id", .num 1), ("text", .str "B")]])).colVals (labelName "konId") =
      ((⟨["konId"], [[some (.num 1)], [some (.num 7)]], []⟩ : DataFrame).colVals "konId").map
        (fun v =>
          match v with
          | none => none
          | some x =>
            match (((dfOfRecords [[("id", .num 1), ("text", .str "A")],
                [("id", .num 1), ("text", .str "B")]]).colVals "id").zip
                  ((dfOfRecords [[("id", .num 1), ("text", .str "A")],
                    [("id", .num 1), ("text", .str "B")]]).colVals "text")).reverse.find?
                (fun p => decide (p.1 = some x)) with
            | some q => q.2
            | none => none) :=
  (add_label_column_last_occurrence ⟨["konId"], [[some (.num 1)], [some (.num 7)]], []⟩
    (dfOfRecords [[("id", .num 1), ("text", .str "A")], [("id", .num 1), ("text", .str "B")]])
    "konId" (by decide) (by decide) (by decide) (by decide)).1

theorem countOcc_append (l1 l2 : List String) (a : String) :
    countOcc (l1 ++ l2) a = countOcc l1 a + countOcc l2 a := by
  induction l1 with
  | nil => simp [countOcc]
  | cons x xs ih => simp [countOcc, ih, Nat.add_assoc]

theorem countOcc_eq_zero (l : List String) (a : String) :
    countOcc l a = 0 ↔ a ∉ l := by
  induction l with
  | nil => simp [countOcc]
  | cons x xs ih =>
    by_cases h : x = a
    · simp [countOcc, h]
    · simp [countOcc, h, ih, Ne.symm h]

/-- The columns after one enrichment step: unchanged unless the column
produces a label absent so far, which is appended. -/
theorem enrichStep_cols (metadata : Metadata) (acc : DataFrame) (c : String) :
    (enrichStep metadata acc c).cols =
      match producesLabel metadata c with
      | some l => if l ∈ acc.cols then acc.cols else acc.cols ++ [l]
      | none => acc.cols := by
  unfold enrichStep producesLabel
  by_cases h1 : c ∈ EXCLUDED_COLUMNS
  · simp [h1]
  · by_cases h2 : c = "ar"
    · simp [h1, h2]
    · by_cases h3 : pyEndsWith c "Id"
      · simp only [h1, h2, h3, if_false, if_true, ite_true, ite_false]
        cases hm : PyDict.get metadata (.str (pyToLower (c.dropRight 2))) with
        | none => simp
        | some mdf =>
          by_cases h4 : "id" ∈ mdf.cols ∧ "text" ∈ mdf.cols
          · simp only [add_label_column, h4, if_pos h4, ite_true]
            unfold DataFrame.setCol
            by_cases h5 : labelName c ∈ acc.cols
            · simp [h5]
            · simp [h5]
          · simp [add_label_column, h4]
      · simp [h1, h2, h3]

/-- The label count after one enrichment step: becomes one when the column
first produces that label, otherwise unchanged. -/
theorem countOcc_enrichStep (metadata : Metadata) (acc : DataFrame) (c l : String) :
    countOcc (enrichStep metadata acc c).cols l =
      if producesLabel metadata c = some l ∧ countOcc acc.cols l = 0 then 1
      else countOcc acc.cols l := by
  rw [enrichStep_cols]
  cases hp : producesLabel metadata c with
  | none => simp
  | some l' =>
    by_cases hl : l' = l
    · subst hl
      by_cases hmem : l' ∈ acc.cols
      · have h0 : countOcc acc.cols l' ≠ 0 := fun h => ((countOcc_eq_zero _ _).mp h) hmem
        simp [hmem, h0]
      · have h0 : countOcc acc.cols l' = 0 := (countOcc_eq_zero _ _).mpr hmem
        simp [hmem, h0, countOcc_append, countOcc]
    · by_cases hmem : l' ∈ acc.cols
      · simp [hmem, hl]
      · have hc1 : countOcc [l'] l = 0 := by simp [countOcc, hl]
        simp [hmem, hl, countOcc_append, hc1]

/-- The label count after the whole enrichment pass: one when some snapshot
column produces the label and it was absent, otherwise unchanged. -/
theorem countOcc_foldl_enrichStep (metadata : Metadata) (l : String) :
    ∀ (cs : List String) (acc : DataFrame),
    countOcc (cs.foldl (enrichStep metadata) acc).cols l =
      if (∃ c ∈ cs, producesLabel metadata c = some l) ∧ countOcc acc.cols l = 0 then 1
      else countOcc acc.cols l := by
  intro cs
  induction cs with
  | nil => intro acc; simp
  | cons c cs ih =>
    intro acc
    simp only [List.foldl_cons]
    rw [ih (enrichStep metadata acc c), countOcc_enrichStep]
    by_cases hc : producesLabel metadata c = some l
    · by_cases h0 : countOcc acc.cols l = 0
      · simp [hc, h0]
      · simp [hc, h0]
    · by_cases h0 : countOcc acc.cols l = 0
      · simp [hc, h0]
      · simp [hc, h0]

/-- A produced label is the labelName of its column, which is neither
excluded nor the special case. -/
theorem producesLabel_some_eq (metadata : Metadata) (c lbl : String)
    (h : producesLabel metadata c = some lbl) :
    lbl = labelName c ∧ c ∉ EXCLUDED_COLUMNS ∧ c ≠ "ar" := by
  unfold producesLabel at h
  by_cases h1 : c ∈ EXCLUDED_COLUMNS
  · simp [h1] at h
  · by_cases h2 : c = "ar"
    · simp [h1, h2] at h
    · by_cases h3 : pyEndsWith c "Id"
      · simp only [h1, h2, h3, if_false, if_true, ite_true, ite_false] at h
        cases hm : PyDict.get metadata (.str (pyToLower (c.dropRight 2))) with
        | none => rw [hm] at h; simp at h
        | some mdf =>
          rw [hm] at h
          have h' : (if "id" ∈ mdf.cols ∧ "text" ∈ mdf.cols then some (labelName c) else none) =
              some lbl := h
          by_cases h4 : "id" ∈ mdf.cols ∧ "text" ∈ mdf.cols
          · rw [if_pos h4] at h'
            exact ⟨(Option.some.inj h').symm, h1, h2⟩
          · rw [if_neg h4] at h'
            simp at h'
      · simp [h1, h2, h3] at h

/-- The helper label column 'ar_label' never itself produces a label. -/
theorem producesLabel_ar_label (metadata : Metadata) :
    producesLabel metadata "ar_label" = none := by
  unfold producesLabel
  rw [if_neg (by decide), if_neg (by decide),
    if_neg (by decide : ¬(pyEndsWith "ar_label" "Id" = true))]

/-- The special-cases pass leaves the columns unchanged or appends exactly
'ar_label'. -/
theorem arSpecial_cols (df : DataFrame) (metadata : Metadata) :
    (arSpecial df metadata).cols = df.cols ∨
    (arSpecial df metadata).cols = df.cols ++ ["ar_label"] := by
  unfold arSpecial
  cases PyDict.get metadata (.str "ar") with
  | none => exact .inl rfl
  | some mdf =>
    show (if "ar" ∈ df.cols then add_label_column df "ar" mdf else df).cols = df.cols ∨
      (if "ar" ∈ df.cols then add_label_column df "ar" mdf else df).cols = df.cols ++ ["ar_label"]
    by_cases h : "ar" ∈ df.cols
    · rw [if_pos h]
      unfold add_label_column
      by_cases h4 : "id" ∈ mdf.cols ∧ "text" ∈ mdf.cols
      · rw [if_pos h4]
        have hlab : labelName "ar" = "ar_label" := by decide
        rw [hlab]
        unfold DataFrame.setCol
        by_cases h5 : "ar_label" ∈ df.cols
        · rw [if_pos h5]
          exact .inl rfl
        · rw [if_neg h5]
          exact .inr rfl
      · rw [if_neg h4]
        exact .inl rfl
    · rw [if_neg h]
      exact .inl rfl

/-- C2 counterexample: the eligible field IdkonId (derived variable idkon,
present in the metadata mapping) gets its label column named
_labelkon_label, because str.replace rewrites every occurrence of 'Id';
the trailing-suffix name Idkon_label claimed by the spec is absent. -/
theorem enrich_trailing_suffix_refuted :
    "_labelkon_label" ∈ (enrich_dataframe ⟨["IdkonId"], [[some (.num 1)]], []⟩
        [(.str "idkon", dfOfRecords [[("id", .num 1), ("text", .str "X")]])]).cols ∧
    "Idkon_label" ∉ (enrich_dataframe ⟨["IdkonId"], [[some (.num 1)]], []⟩
        [(.str "idkon", dfOfRecords [[("id", .num 1), ("text", .str "X")]])]).cols := by
  decide

/-- C2 amended: for every row-schema field whose name the enrichment column
rule accepts (not excluded, not 'ar', ending in 'Id') and whose derived
metadata variable has a well-formed entry in the metadata mapping,
enrichment adds exactly one label column, named by replacing EVERY
occurrence of 'Id' in the field name with '_label' (which coincides with
replacing the trailing suffix whenever 'Id' occurs only there); and a field
whose derived variable has no entry in the mapping gets no label column —
neither case is an error. -/
theorem enrich_adds_label_columns (df : DataFrame) (metadata : Metadata) :
    (∀ c lbl : String, c ∈ df.cols →
      producesLabel metadata c = some lbl →
      lbl ∉ df.cols → lbl ≠ "ar_label" →
      countOcc (enrich_dataframe df metadata).cols lbl = 1 ∧
        lbl = pyReplace c "Id" "_label") ∧
    (∀ c : String, c ∈ df.cols → pyEndsWith c "Id" = true →
      PyDict.get metadata (.str (pyToLower (c.dropRight 2))) = none →
      pyReplace c "Id" "_label" ∉ df.cols →
      pyReplace c "Id" "_label" ≠ "ar_label" →
      (∀ c' ∈ df.cols, producesLabel metadata c' ≠ some (pyReplace c "Id" "_label")) →
      pyReplace c "Id" "_label" ∉ (enrich_dataframe df metadata).cols) := by
  constructor
  · intro c lbl hc hprod hfresh har
    obtain ⟨hlab, _hexc, har2⟩ := producesLabel_some_eq metadata c lbl hprod
    constructor
    · unfold enrich_dataframe
      rw [countOcc_foldl_enrichStep]
      have hcount0 : countOcc (arSpecial df metadata).cols lbl = 0 := by
        rcases arSpecial_cols df metadata with hs | hs
        · rw [hs]
          exact (countOcc_eq_zero _ _).mpr hfresh
        · rw [hs, countOcc_append, (countOcc_eq_zero df.cols lbl).mpr hfresh]
          simp [countOcc, Ne.symm har]
      have hex : ∃ c' ∈ (arSpecial df metadata).cols, producesLabel metadata c' = some lbl := by
        refine ⟨c, ?_, hprod⟩
        rcases arSpecial_cols df metadata with hs | hs
        · rw [hs]
          exact hc
        · rw [hs]
          exact List.mem_append_left _ hc
      rw [if_pos ⟨hex, hcount0⟩]
    · rw [hlab]
      unfold labelName
      rw [if_neg har2]
  · intro c hc _hend _hm hfresh har hnone
    apply (countOcc_eq_zero _ _).mp
    unfold enrich_dataframe
    rw [countOcc_foldl_enrichStep]
    have hnoex : ¬∃ c' ∈ (arSpecial df metadata).cols,
        producesLabel metadata c' = some (pyReplace c "Id" "_label") := by
      rintro ⟨c', hc', hp⟩
      rcases arSpecial_cols df metadata with hs | hs
      · rw [hs] at hc'
        exact hnone c' hc' hp
      · rw [hs] at hc'
        rcases List.mem_append.mp hc' with hin | hin
        · exact hnone c' hin hp
        · have hal : c' = "ar_label" := by simpa using hin
          rw [hal, producesLabel_ar_label] at hp
          exact Option.noConfusion hp
    rw [if_neg (fun hcond => hnoex hcond.1)]
    rcases arSpecial_cols df metadata with hs | hs
    · rw [hs]
      exact (countOcc_eq_zero _ _).mpr hfresh
    · rw [hs, countOcc_append, (countOcc_eq_zero df.cols _).mpr hfresh]
      simp [countOcc, Ne.symm har]

/-- C2 witness: konId with kon metadata gains exactly one kon_label column;
regionId without region metadata gains none. -/
theorem enrich_adds_label_columns_witness :
    (countOcc (enrich_dataframe ⟨["konId", "varde"], [[some (.num 1), some (.num 100)]], []⟩
        [(.str "kon", dfOfRecords [[("id", .num 1), ("text", .str "Man")]])]).cols
      "kon_label" = 1 ∧
      "kon_label" = pyReplace "konId" "Id" "_label") ∧
    pyReplace "regionId" "Id" "_label" ∉
      (enrich_dataframe ⟨["regionId"], [[some (.num 5)]], []⟩
        [(.str "kon", dfOfRecords [[("id", .num 1), ("text", .str "Man")]])]).cols := by
  constructor
  · exact (enrich_adds_label_columns _ _).1 "konId" "kon_label"
      (by decide) (by decide) (by decide) (by decide)
  · exact (enrich_adds_label_columns _ _).2 "regionId"
      (by decide) (by decide) (by decide) (by decide) (by decide) (by decide)

theorem urlFor_length (i : Nat) : (urlFor i).length = i := by
  simp [urlFor, String.length]

theorem urlFor_ne_empty (i : Nat) : urlFor (i + 1) ≠ "" := by
  intro h
  have hd := congrArg String.data h
  simp [urlFor] at hd

/-- A next-page URL is truthy. -/
theorem urlFor_truthy (i : Nat) :
    optTruthyR (some (.scalar (.str (urlFor (i + 1))))) = true := by
  simp [optTruthyR, RVal.truthy, SVal.truthy, urlFor_ne_empty i]

/-- A chain page that is not the last carries the link to the next page. -/
theorem pageObj_nasta (pages : List (List Obj)) (i : Nat) (h : i + 1 < pages.length) :
    objGet (pageObj pages i) "nasta_sida" = some (.scalar (.str (urlFor (i + 1)))) := by
  simp [pageObj, objGet, PyDict.get, h, show ("data" : String) ≠ "nasta_sida" by decide]

/-- The last chain page carries no next-page link. -/
theorem pageObj_nasta_last (pages : List (List Obj)) (i : Nat) (h : ¬i + 1 < pages.length) :
    objGet (pageObj pages i) "nasta_sida" = none := by
  simp [pageObj, objGet, PyDict.get, h, show ("data" : String) ≠ "nasta_sida" by decide]

/-- The records of a chain page. -/
theorem pageObj_data (pages : List (List Obj)) (i : Nat) :
    pyData (pageObj pages i) = pages.getD i [] := by
  simp [pyData, pageObj, objGet, PyDict.get]

/-- Following a next-page URL serves the designated page. -/
theorem chainFetch_next (pages : List (List Obj)) (j : Nat) :
    chainFetch pages ⟨urlFor j, none⟩ = .ok (pageObj pages j) := by
  show Except.ok (pageObj pages (urlFor j).length) = _
  rw [urlFor_length]

/-- Field values of the aggregate-result update: data, sida, per_sida and
sidor carry the aggregate record list, page 1, the total record count and
the fetched page count; these four assignments do not disturb each other. -/
theorem objGet_aggregateUpdate (res : PyObj) (all_data : List Obj) (pc : Nat) :
    objGet (aggregateUpdate res all_data pc) "data" = some (.records all_data) ∧
    objGet (aggregateUpdate res all_data pc) "sida" = some (.scalar (.num 1)) ∧
    objGet (aggregateUpdate res all_data pc) "per_sida" =
      some (.scalar (.num all_data.length)) ∧
    objGet (aggregateUpdate res all_data pc) "sidor" = some (.scalar (.num pc)) := by
  unfold aggregateUpdate objGet objSet
  refine ⟨?_, ?_, ?_, ?_⟩
  · rw [PyDict.get_set_ne _ _ _ _ (by decide), PyDict.get_set_ne _ _ _ _ (by decide),
      PyDict.get_set_ne _ _ _ _ (by decide), PyDict.get_set_self]
  · rw [PyDict.get_set_ne _ _ _ _ (by decide), PyDict.get_set_ne _ _ _ _ (by decide),
      PyDict.get_set_self]
  · rw [PyDict.get_set_ne _ _ _ _ (by decide), PyDict.get_set_self]
  · rw [PyDict.get_set_self]

/-- The pagination loop over the canonical page chain, started at page i
with page_count i+1: it fetches pages i+1 .. k-1 (k the effective page
budget: the page count, or the cap when one applies), accumulates their
records in order, and stops with page_count k. -/
theorem chain_paginate (pages : List (List Obj)) (mp : Option Int) (k : Nat)
    (hcase : (mp = none ∧ k = pages.length) ∨
      (∃ m : Int, mp = some m ∧ 1 ≤ m ∧ k = min pages.length m.toNat)) :
    ∀ (fuel i : Nat) (acc : List Obj), i + 1 ≤ k → k - i ≤ fuel →
    paginate_loop (chainFetch pages) mp fuel (pageObj pages i) acc (i + 1) =
      (.ok (pageObj pages (k - 1),
          acc ++ ((pages.drop (i + 1)).take (k - (i + 1))).flatten, k),
        (List.range' (i + 1) (k - (i + 1))).map
          (fun j => (⟨urlFor j, none⟩ : HttpRequest))) := by
  have hkn : k ≤ pages.length := by
    rcases hcase with ⟨_, hk⟩ | ⟨m, _, _, hk⟩
    · omega
    · subst hk
      exact Nat.min_le_left _ _
  intro fuel
  induction fuel with
  | zero =>
    intro i acc h1 h2
    omega
  | succ fuel ih =>
    intro i acc hik hfuel
    by_cases hstop : i + 1 = k
    · have hk1 : k - 1 = i := by omega
      have h0 : k - (i + 1) = 0 := by omega
      by_cases hlast : i + 1 < pages.length
      · rcases hcase with ⟨hmp, hk⟩ | ⟨m, hmp, hm1, hk⟩
        · omega
        · subst hmp
          have hcap : capReached (some m) (i + 1) = true := by
            simp only [capReached, decide_eq_true_eq]
            refine ⟨by omega, by omega⟩
          simp only [paginate_loop]
          rw [pageObj_nasta pages i hlast, if_pos (urlFor_truthy i), if_pos hcap]
          rw [hk1, h0]
          simp [hstop]
      · simp only [paginate_loop]
        rw [pageObj_nasta_last pages i hlast]
        rw [if_neg (by simp [optTruthyR])]
        rw [hk1, h0]
        simp [hstop]
    · have hi1 : i + 1 < k := by omega
      have hlast : i + 1 < pages.length := by omega
      have hcap : ¬capReached mp (i + 1) = true := by
        rcases hcase with ⟨hmp, hk⟩ | ⟨m, hmp, hm1, hk⟩
        · subst hmp
          simp [capReached]
        · subst hmp
          simp only [capReached, decide_eq_true_eq]
          rintro ⟨-, hge⟩
          omega
      simp only [paginate_loop]
      rw [pageObj_nasta pages i hlast, if_pos (urlFor_truthy i), if_neg hcap]
      show (match chainFetch pages ⟨urlFor (i + 1), none⟩ with
        | Except.error e => (Except.error e, [(⟨urlFor (i + 1), none⟩ : HttpRequest)])
        | Except.ok r2 =>
          ((paginate_loop (chainFetch pages) mp fuel r2 (acc ++ pyData r2) (i + 1 + 1)).1,
            (⟨urlFor (i + 1), none⟩ : HttpRequest) ::
              (paginate_loop (chainFetch pages) mp fuel r2 (acc ++ pyData r2) (i + 1 + 1)).2)) = _
      rw [chainFetch_next pages (i + 1)]
      show ((paginate_loop (chainFetch pages) mp fuel (pageObj pages (i + 1))
            (acc ++ pyData (pageObj pages (i + 1))) (i + 1 + 1)).1,
          (⟨urlFor (i + 1), none⟩ : HttpRequest) ::
            (paginate_loop (chainFetch pages) mp fuel (pageObj pages (i + 1))
              (acc ++ pyData (pageObj pages (i + 1))) (i + 1 + 1)).2) = _
      rw [pageObj_data pages (i + 1)]
      rw [ih (i + 1) (acc ++ pages.getD (i + 1) []) (by omega) (by omega)]
      have hdata : pages.getD (i + 1) [] ++
          ((pages.drop (i + 1 + 1)).take (k - (i + 1 + 1))).flatten =
          ((pages.drop (i + 1)).take (k - (i + 1))).flatten := by
        have hdrop : pages.drop (i + 1) = pages.getD (i + 1) [] :: pages.drop (i + 1 + 1) := by
          rw [List.drop_eq_getElem_cons hlast, List.getD_eq_getElem pages [] hlast]
        rw [hdrop]
        have htake : k - (i + 1) = (k - (i + 1 + 1)) + 1 := by omega
        rw [htake, List.take_succ_cons, List.flatten_cons]
      have htr : (List.range' (i + 1) (k - (i + 1))).map
            (fun j => (⟨urlFor j, none⟩ : HttpRequest)) =
          (⟨urlFor (i + 1), none⟩ : HttpRequest) ::
            (List.range' (i + 1 + 1) (k - (i + 1 + 1))).map
              (fun j => (⟨urlFor j, none⟩ : HttpRequest)) := by
        have htk : k - (i + 1) = (k - (i + 1 + 1)) + 1 := by omega
        rw [htk, List.range'_succ]
        simp
      simp [htr, List.append_assoc]
      simpa using hdata

/-- C1: for every data fetch over a page chain with auto-pagination
enabled, no explicit page index requested, and a next-page reference
present on the first page (at least two pages), the returned aggregate
result holds all fetched pages' records concatenated in page-arrival then
intra-page order (the flattening of the first k pages), its sidor
(page_count) field equals the number k of pages actually fetched — also
when fetching stops because the max_pages cap was reached, which yields a
partial result and is not an error — its synthesized per_sida (page_size)
field equals the total record count, and exactly k HTTP requests were
issued.  k is the whole chain length without a cap, and the minimum of the
chain length and the cap with one. -/
theorem get_data_auto_paginate_aggregate (pages : List (List Obj)) (a : GetDataArgs)
    (fuel : Nat) (parts : List String) (k : Nat)
    (hp : buildParts a = .ok parts)
    (hap : a.auto_paginate = true) (hsida : a.sida = none)
    (hn : 2 ≤ pages.length) (hfuel : pages.length ≤ fuel)
    (hcase : (a.max_pages = none ∧ k = pages.length) ∨
      (∃ m : Int, a.max_pages = some m ∧ 1 ≤ m ∧ k = min pages.length m.toNat)) :
    (get_data (chainFetch pages) a fuel).1 =
      .ok (aggregateUpdate (pageObj pages (k - 1)) (pages.take k).flatten k) ∧
    objGet (aggregateUpdate (pageObj pages (k - 1)) (pages.take k).flatten k) "data" =
      some (.records (pages.take k).flatten) ∧
    objGet (aggregateUpdate (pageObj pages (k - 1)) (pages.take k).flatten k) "sidor" =
      some (.scalar (.num k)) ∧
    objGet (aggregateUpdate (pageObj pages (k - 1)) (pages.take k).flatten k) "per_sida" =
      some (.scalar (.num (pages.take k).flatten.length)) ∧
    (get_data (chainFetch pages) a fuel).2.length = k := by
  have hk1 : 1 ≤ k := by
    rcases hcase with ⟨_, hk⟩ | ⟨m, _, hm1, hk⟩ <;> omega
  have hkn : k ≤ pages.length := by
    rcases hcase with ⟨_, hk⟩ | ⟨m, _, _, hk⟩
    · omega
    · subst hk
      exact Nat.min_le_left _ _
  have hloop := chain_paginate pages a.max_pages k hcase fuel 0 (pyData (pageObj pages 0))
    (by omega) (by omega)
  simp only [Nat.zero_add] at hloop
  have htru : optTruthyR (objGet (pageObj pages 0) "nasta_sida") = true := by
    rw [pageObj_nasta pages 0 (by omega)]
    exact urlFor_truthy 0
  have hgd : get_data (chainFetch pages) a fuel =
      (.ok (aggregateUpdate (pageObj pages (k - 1))
          (pyData (pageObj pages 0) ++ ((pages.drop 1).take (k - 1)).flatten) k),
        initRequest a parts ::
          (List.range' 1 (k - 1)).map (fun j => (⟨urlFor j, none⟩ : HttpRequest))) := by
    rw [get_data_ok_parts (chainFetch pages) a fuel parts hp]
    have hcf : chainFetch pages (initRequest a parts) = .ok (pageObj pages 0) := rfl
    rw [hcf]
    show (if a.auto_paginate ∧ optTruthyR (objGet (pageObj pages 0) "nasta_sida") ∧
          a.sida = none then
        match paginate_loop (chainFetch pages) a.max_pages fuel (pageObj pages 0)
            (pyData (pageObj pages 0)) 1 with
        | (Except.error e, tr) => (Except.error e, initRequest a parts :: tr)
        | (Except.ok (res, all_data, page_count), tr) =>
          (Except.ok (aggregateUpdate res all_data page_count), initRequest a parts :: tr)
      else (Except.ok (pageObj pages 0), [initRequest a parts])) = _
    rw [if_pos ⟨hap, htru, hsida⟩, hloop]
  have hflat : pyData (pageObj pages 0) ++ ((pages.drop 1).take (k - 1)).flatten =
      (pages.take k).flatten := by
    rw [pageObj_data pages 0]
    cases pages with
    | nil => simp at hn
    | cons p rest =>
      have hk' : k = (k - 1) + 1 := by omega
      calc (p :: rest).getD 0 [] ++ (((p :: rest).drop 1).take (k - 1)).flatten
          = p ++ (rest.take (k - 1)).flatten := by simp [List.getD]
        _ = (p :: rest.take (k - 1)).flatten := (List.flatten_cons).symm
        _ = ((p :: rest).take ((k - 1) + 1)).flatten := by rw [List.take_succ_cons]
        _ = ((p :: rest).take k).flatten := by rw [← hk']
  rw [hgd]
  refine ⟨?_, (objGet_aggregateUpdate _ _ _).1, (objGet_aggregateUpdate _ _ _).2.2.2,
    (objGet_aggregateUpdate _ _ _).2.2.1, ?_⟩
  · show Except.ok (aggregateUpdate (pageObj pages (k - 1))
        (pyData (pageObj pages 0) ++ ((pages.drop 1).take (k - 1)).flatten) k) = _
    rw [hflat]
  · show (initRequest a parts ::
        (List.range' 1 (k - 1)).map (fun j => (⟨urlFor j, none⟩ : HttpRequest))).length = k
    simp [List.length_range']
    omega

/-- C1 witness: a three-page chain, fetched whole (three requests, sidor 3,
per_sida 3) and capped at two pages (two requests, sidor 2, per_sida 2,
partial data, no error). -/
theorem get_data_auto_paginate_aggregate_witness :
    ((get_data (chainFetch [[[("v", SVal.num 1)]], [[("v", SVal.num 2)]], [[("v", SVal.num 3)]]])
        { subject := "amning" } 3).1 =
      .ok (aggregateUpdate
        (pageObj [[[("v", SVal.num 1)]], [[("v", SVal.num 2)]], [[("v", SVal.num 3)]]] 2)
        ([[[("v", SVal.num 1)]], [[("v", SVal.num 2)]], [[("v", SVal.num 3)]]].take 3).flatten 3) ∧
    (get_data (chainFetch [[[("v", SVal.num 1)]], [[("v", SVal.num 2)]], [[("v", SVal.num 3)]]])
        { subject := "amning" } 3).2.length = 3) ∧
    ((get_data (chainFetch [[[("v", SVal.num 1)]], [[("v", SVal.num 2)]], [[("v", SVal.num 3)]]])
        { subject := "amning", max_pages := some 2 } 3).2.length = 2 ∧
      objGet (aggregateUpdate
        (pageObj [[[("v", SVal.num 1)]], [[("v", SVal.num 2)]], [[("v", SVal.num 3)]]] 1)
        ([[[("v", SVal.num 1)]], [[("v", SVal.num 2)]], [[("v", SVal.num 3)]]].take 2).flatten 2)
        "sidor" = some (.scalar (.num 2))) := by
  constructor
  · have T := get_data_auto_paginate_aggregate
      [[[("v", SVal.num 1)]], [[("v", SVal.num 2)]], [[("v", SVal.num 3)]]]
      { subject := "amning" } 3 ["v1", "sv", "amning", "resultat"] 3
      rfl rfl rfl (by decide) (by decide) (.inl ⟨rfl, rfl⟩)
    exact ⟨T.1, T.2.2.2.2⟩
  · have T := get_data_auto_paginate_aggregate
      [[[("v", SVal.num 1)]], [[("v", SVal.num 2)]], [[("v", SVal.num 3)]]]
      { subject := "amning", max_pages := some 2 } 3 ["v1", "sv", "amning", "resultat"] 2
      rfl rfl rfl (by decide) (by decide) (.inr ⟨2, rfl, by decide, by decide⟩)
    exact ⟨T.2.2.2.2, T.2.2.1⟩

end Socstats
